import Mathlib

/-!
Verification of the event-coalescing core of `sverchok` (`core/events.py`).

The module centralizes Blender update events: raw notifications are
classified (`EVENT_CONVERSION`), buffered into a wave (`CurrentEvents.events_wave`),
and on wave termination reduced to a single Sverchok-level event whose trace,
in debug mode, lists the affected elements of the leading run of same-kind
records.  This file is a shallow embedding of that module: the class-level
mutable buffer becomes explicit state passing, Python exceptions become an
`Except` / error field, and the `print` side effects become returned `Trace`
values that record exactly the data each print statement would format.
-/

/-- The nine raw Blender event kinds (`class BlenderEvents(Enum)`). -/
inductive BlenderEvents where
  | tree_update
  | monad_tree_update
  | node_update
  | add_node
  | copy_node
  | free_node
  | add_link_to_node
  | node_property_update
  | undo
deriving DecidableEq, Repr

/-- The seven Sverchok domain event kinds (`class SverchokEvents(Enum)`). -/
inductive SverchokEvents where
  | add_node
  | copy_nodes
  | free_nodes
  | node_property_update
  | node_link_update
  | undo
  | undefined
deriving DecidableEq, Repr

/-- A Blender entity (a `Node` or a `NodeTree`) as far as this module observes
it: its `bl_idname` and its `name`.  Two values of this type stand for two
object identities, so equality of values models reference identity. -/
structure Element where
  bl_idname : String
  name : String
deriving DecidableEq, Repr

/-- The `Event` NamedTuple: a raw kind paired with the optionally-absent
updated element. -/
structure Event where
  type : BlenderEvents
  updated_element : Option Element
deriving DecidableEq, Repr

/-- The Python exceptions this module can raise: indexing an empty list,
a missing dictionary key (carrying the offending `BlenderEvents` kind, as the
re-raised `KeyError` message does), and attribute access on `None`
(`el.name` with `el = None` in `SverchokEvents.print`). -/
inductive PyError where
  | IndexError
  | KeyError (k : BlenderEvents)
  | AttributeError
deriving DecidableEq, Repr

/-- One emitted trace line, kept structured: `raw` records the arguments that
`BlenderEvents.print` formats (the element data present only when the element
is), `reduced` records what `SverchokEvents.print` formats (the element names,
present only when a list was passed). -/
inductive Trace where
  | raw (event_type : BlenderEvents) (element_data : Option (String × String))
  | reduced (sverchok_event_type : SverchokEvents) (names : Option (List String))
deriving DecidableEq, Repr

/-- An operand of a Python `==` comparison in this module: either an `Event`
or a bare `BlenderEvents` member. -/
inductive Operand where
  | ofEvent (e : Event)
  | ofKind (k : BlenderEvents)
deriving DecidableEq, Repr

/-- Net semantics of the Python `==` between the operands this module
compares.  `Event.__eq__(self, other)` is `self.type == other`; enum members
compare by identity and return `NotImplemented` against other types, after
which Python tries the reflected `Event.__eq__`.  Tracing that dispatch:
kind vs kind is member identity; kind vs event (and event vs kind) resolves
through `Event.__eq__` to comparing the event's `type` with the kind; event
vs event resolves through the reflected call to comparing the two `type`
fields.  Subjects never participate. -/
def pyEq : Operand → Operand → Bool
  | .ofKind k, .ofKind k' => decide (k = k')
  | .ofKind k, .ofEvent e => decide (e.type = k)
  | .ofEvent e, .ofKind k => decide (e.type = k)
  | .ofEvent e, .ofEvent o => decide (o.type = e.type)

/-- The Python `!=` between two `Event`s.  `Event` overrides `__eq__` only;
`!=` therefore resolves to the inherited `tuple.__ne__`, which compares the
two tuples element-wise (enum member identity on `type`, reference identity
on `updated_element`). -/
def Event.tupleNe (e o : Event) : Bool :=
  !(decide (e.type = o.type) && decide (e.updated_element = o.updated_element))

/-- The `EVENT_CONVERSION` dictionary, as the association list written in the
source, in source order. -/
def EVENT_CONVERSION : List (BlenderEvents × SverchokEvents) :=
  [(.tree_update, .undefined),
   (.monad_tree_update, .undefined),
   (.node_update, .undefined),
   (.add_node, .add_node),
   (.copy_node, .copy_nodes),
   (.free_node, .free_nodes),
   (.add_link_to_node, .node_link_update),
   (.node_property_update, .node_property_update),
   (.undo, .undo)]

/-- Dictionary lookup `table[k]` on an association list keyed by raw event
kinds, `none` when the key is absent (Python raises `KeyError` there). -/
def dict_get : List (BlenderEvents × SverchokEvents) → BlenderEvents → Option SverchokEvents
  | [], _ => none
  | (k', v) :: rest, k => if k' = k then some v else dict_get rest k

/-- `Event.get_sverchok_type_event`, generalized over the dictionary it reads:
look the event's `type` up; on a missing key the `KeyError` is caught and
re-raised carrying the offending kind. -/
def Event.get_sverchok_type_event_in
    (table : List (BlenderEvents × SverchokEvents)) (e : Event) :
    Except PyError SverchokEvents :=
  match dict_get table e.type with
  | some v => .ok v
  | none => .error (.KeyError e.type)

/-- `Event.get_sverchok_type_event` as written: the lookup against the module
level `EVENT_CONVERSION` dictionary. -/
def Event.get_sverchok_type_event (e : Event) : Except PyError SverchokEvents :=
  e.get_sverchok_type_event_in EVENT_CONVERSION

/-- `BlenderEvents.print`: formats the event name, and the element data only
when `updated_element is not None` (it accesses `bl_idname` and `name` only
under that guard, so it is total). -/
def BlenderEvents.print (k : BlenderEvents) (updated_element : Option Element) : Trace :=
  match updated_element with
  | some el => .raw k (some (el.bl_idname, el.name))
  | none => .raw k none

/-- The list comprehension `[el.name for el in updated_elements]` inside
`SverchokEvents.print`: evaluated left to right, it raises `AttributeError`
at the first element that is `None` (no guard exists for elements, unlike
`BlenderEvents.print`'s guard for the single element). -/
def elementNames : List (Option Element) → Option (List String)
  | [] => some []
  | some el :: rest => (elementNames rest).map (fun ns => el.name :: ns)
  | none :: _ => none

/-- `SverchokEvents.print`: with no element list it formats only the event
name; with a list it joins the `name` of every element, raising
`AttributeError` when an element is `None`. -/
def SverchokEvents.print (sv : SverchokEvents) (updated_elements : Option (List (Option Element))) :
    Except PyError Trace :=
  match updated_elements with
  | none => .ok (.reduced sv none)
  | some els =>
    match elementNames els with
    | some names => .ok (.reduced sv (some names))
    | none => .error .AttributeError

/-- The terminating kinds, `sign_of_wave_end` in `CurrentEvents.is_wave_end`,
in source order. -/
def sign_of_wave_end : List BlenderEvents :=
  [.tree_update, .node_property_update, .monad_tree_update]

/-- `CurrentEvents.is_wave_end`: membership of `events_wave[-1]` in
`sign_of_wave_end`, tested with the Python `==` of `Event` against a bare
kind; indexing an empty buffer raises `IndexError`. -/
def is_wave_end (events_wave : List Event) : Except PyError Bool :=
  match events_wave.getLast? with
  | none => .error .IndexError
  | some last => .ok (sign_of_wave_end.any (fun k => pyEq (.ofEvent last) (.ofKind k)))

/-- `CurrentEvents.convert_wave_to_sverchok_event`: classify `events_wave[0]`;
in debug mode, trace the undefined kind bare, or trace the kind together with
the updated elements of `takewhile(lambda ev: ev == events_wave[0], events_wave)`
— the maximal leading run of records comparing equal (kind-only) to the first.
The returned list holds the trace lines the call prints. -/
def convert_wave_to_sverchok_event (debug : Bool) (events_wave : List Event) :
    Except PyError (List Trace) :=
  match events_wave with
  | [] => .error .IndexError
  | first :: _ =>
    match first.get_sverchok_type_event with
    | .error e => .error e
    | .ok sverchok_event_type =>
      if debug then
        if sverchok_event_type = SverchokEvents.undefined then
          match SverchokEvents.print sverchok_event_type none with
          | .error e => .error e
          | .ok t => .ok [t]
        else
          match SverchokEvents.print sverchok_event_type
              (some ((events_wave.takeWhile (fun ev => pyEq (.ofEvent ev) (.ofEvent first))).map
                (fun ev => ev.updated_element))) with
          | .error e => .error e
          | .ok t => .ok [t]
      else .ok []

/-- Result of one `CurrentEvents.new_event` call: the buffer afterwards, the
trace lines printed during the call, and the exception that escaped the call,
if any (the buffer field then reflects the state the exception left behind). -/
structure StepResult where
  events_wave : List Event
  traces : List Trace
  err : Option PyError
deriving DecidableEq, Repr

/-- The per-record trace of `new_event`: one `BlenderEvents.print` line when
debugging is enabled. -/
def raw_traces (debug : Bool) (event_type : BlenderEvents) (updated_element : Option Element) :
    List Trace :=
  if debug then [BlenderEvents.print event_type updated_element] else []

/-- `CurrentEvents.new_event` with the class state passed explicitly and the
debug flag (read fresh from preferences on every call) as an input: filter
`node_update`, append, trace in debug mode, then on wave end reduce and clear.
An exception escaping the reduction leaves the appended buffer uncleared. -/
def new_event (debug : Bool) (events_wave : List Event) (event_type : BlenderEvents)
    (updated_element : Option Element) : StepResult :=
  if event_type = BlenderEvents.node_update then
    ⟨events_wave, [], none⟩
  else
    match is_wave_end (events_wave ++ [⟨event_type, updated_element⟩]) with
    | .error e =>
      ⟨events_wave ++ [⟨event_type, updated_element⟩],
       raw_traces debug event_type updated_element, some e⟩
    | .ok false =>
      ⟨events_wave ++ [⟨event_type, updated_element⟩],
       raw_traces debug event_type updated_element, none⟩
    | .ok true =>
      match convert_wave_to_sverchok_event debug
          (events_wave ++ [⟨event_type, updated_element⟩]) with
      | .error e =>
        ⟨events_wave ++ [⟨event_type, updated_element⟩],
         raw_traces debug event_type updated_element, some e⟩
      | .ok ts =>
        ⟨[], raw_traces debug event_type updated_element ++ ts, none⟩

/-- One host notification as the glue delivers it: the debug-flag value read
during the call, the raw kind, and the optional subject. -/
structure CallArg where
  debug : Bool
  event_type : BlenderEvents
  updated_element : Option Element
deriving DecidableEq, Repr

/-- A sequence of `new_event` calls threaded through the class state, returning
the final buffer and the trace lines of each call in order. -/
def runEvents (events_wave : List Event) : List CallArg → List Event × List (List Trace)
  | [] => (events_wave, [])
  | c :: rest =>
    ((runEvents (new_event c.debug events_wave c.event_type c.updated_element).events_wave rest).1,
     (new_event c.debug events_wave c.event_type c.updated_element).traces ::
       (runEvents (new_event c.debug events_wave c.event_type c.updated_element).events_wave rest).2)

/-! ### Helper lemmas about the embedded operations -/

/-- The last element of the buffer right after an append is the appended
record, so `is_wave_end` succeeds there and tests exactly that record. -/
theorem is_wave_end_concat (st : List Event) (e : Event) :
    is_wave_end (st ++ [e]) =
      .ok (sign_of_wave_end.any (fun k => pyEq (.ofEvent e) (.ofKind k))) := by
  simp [is_wave_end, List.getLast?_concat]

/-- The termination test computes membership of the record's kind in
`sign_of_wave_end`. -/
theorem any_sign_iff (e : Event) :
    (sign_of_wave_end.any (fun k => pyEq (.ofEvent e) (.ofKind k))) = true ↔
      e.type ∈ sign_of_wave_end := by
  cases e with
  | mk t el => cases t <;> simp [sign_of_wave_end, pyEq]

/-- `EVENT_CONVERSION` has an entry for every declared raw kind. -/
theorem dict_get_total (k : BlenderEvents) :
    (dict_get EVENT_CONVERSION k).isSome = true := by
  cases k <;> rfl

/-- Classification through the fixed table succeeds on every event. -/
theorem get_sverchok_type_event_ok (e : Event) :
    ∃ v, e.get_sverchok_type_event = .ok v := by
  cases e with
  | mk t el => cases t <;> exact ⟨_, rfl⟩

/-- With debugging off, reduction of any non-empty wave succeeds and prints
nothing. -/
theorem convert_false_ok (f : Event) (rest : List Event) :
    convert_wave_to_sverchok_event false (f :: rest) = .ok [] := by
  obtain ⟨t, el⟩ := f
  cases t <;> rfl

/-- With debugging off, reduction right after an append succeeds and prints
nothing. -/
theorem convert_false_concat (st : List Event) (e : Event) :
    convert_wave_to_sverchok_event false (st ++ [e]) = .ok [] := by
  cases st with
  | nil => exact convert_false_ok e []
  | cons f t => exact convert_false_ok f (t ++ [e])

/-- A `new_event` call on a non-filtered, non-terminating kind just appends
the record and traces it. -/
theorem new_event_open (debug : Bool) (st : List Event) (k : BlenderEvents)
    (el : Option Element) (hk : k ≠ BlenderEvents.node_update)
    (hterm : k ∉ sign_of_wave_end) :
    new_event debug st k el =
      ⟨st ++ [⟨k, el⟩], raw_traces debug k el, none⟩ := by
  have hany : (sign_of_wave_end.any
      (fun k' => pyEq (.ofEvent ⟨k, el⟩) (.ofKind k'))) = false := by
    rw [← Bool.not_eq_true]
    intro h
    exact hterm ((any_sign_iff ⟨k, el⟩).mp h)
  rw [new_event, if_neg hk, is_wave_end_concat, hany]

/-- A `new_event` call on a terminating kind whose reduction succeeds drains
the buffer and appends the reduction's trace lines. -/
theorem new_event_closed (debug : Bool) (st : List Event) (k : BlenderEvents)
    (el : Option Element) (ts : List Trace) (hk : k ≠ BlenderEvents.node_update)
    (hterm : k ∈ sign_of_wave_end)
    (hconv : convert_wave_to_sverchok_event debug (st ++ [⟨k, el⟩]) = .ok ts) :
    new_event debug st k el = ⟨[], raw_traces debug k el ++ ts, none⟩ := by
  have hany : (sign_of_wave_end.any
      (fun k' => pyEq (.ofEvent ⟨k, el⟩) (.ofKind k'))) = true :=
    (any_sign_iff ⟨k, el⟩).mpr hterm
  rw [new_event, if_neg hk, is_wave_end_concat, hany, hconv]

/-- A `new_event` call on a terminating kind whose reduction raises keeps the
appended buffer and reports the escaped exception. -/
theorem new_event_raised (debug : Bool) (st : List Event) (k : BlenderEvents)
    (el : Option Element) (e : PyError) (hk : k ≠ BlenderEvents.node_update)
    (hterm : k ∈ sign_of_wave_end)
    (hconv : convert_wave_to_sverchok_event debug (st ++ [⟨k, el⟩]) = .error e) :
    new_event debug st k el =
      ⟨st ++ [⟨k, el⟩], raw_traces debug k el, some e⟩ := by
  have hany : (sign_of_wave_end.any
      (fun k' => pyEq (.ofEvent ⟨k, el⟩) (.ofKind k'))) = true :=
    (any_sign_iff ⟨k, el⟩).mpr hterm
  rw [new_event, if_neg hk, is_wave_end_concat, hany, hconv]

/-- With debugging off, any `new_event` call drains on a terminator and
appends otherwise, never tracing and never raising. -/
theorem new_event_false_shape (st : List Event) (k : BlenderEvents)
    (el : Option Element) (hk : k ≠ BlenderEvents.node_update) :
    new_event false st k el =
      if k ∈ sign_of_wave_end then ⟨[], [], none⟩
      else ⟨st ++ [⟨k, el⟩], [], none⟩ := by
  by_cases hterm : k ∈ sign_of_wave_end
  · rw [if_pos hterm, new_event_closed false st k el [] hk hterm (convert_false_concat st ⟨k, el⟩)]
    rfl
  · rw [if_neg hterm, new_event_open false st k el hk hterm]
    rfl

/-- With debugging off, a `new_event` call prints nothing and raises nothing. -/
theorem new_event_false_quiet (st : List Event) (k : BlenderEvents) (el : Option Element) :
    (new_event false st k el).traces = [] ∧ (new_event false st k el).err = none := by
  by_cases hk : k = BlenderEvents.node_update
  · subst hk
    exact ⟨rfl, rfl⟩
  · rw [new_event_false_shape st k el hk]
    by_cases hterm : k ∈ sign_of_wave_end
    · rw [if_pos hterm]
      exact ⟨rfl, rfl⟩
    · rw [if_neg hterm]
      exact ⟨rfl, rfl⟩

/-- A `node_update` record call returns before touching anything. -/
theorem new_event_node_update (debug : Bool) (st : List Event) (el : Option Element) :
    new_event debug st BlenderEvents.node_update el = ⟨st, [], none⟩ := rfl

/-- Running a concatenation of call sequences threads the buffer through the
first block and concatenates the per-call traces. -/
theorem runEvents_append (st : List Event) (xs ys : List CallArg) :
    runEvents st (xs ++ ys) =
      ((runEvents (runEvents st xs).1 ys).1,
       (runEvents st xs).2 ++ (runEvents (runEvents st xs).1 ys).2) := by
  induction xs generalizing st with
  | nil => simp [runEvents]
  | cons c rest ih => simp [runEvents, ih]

/-- Calls made while the debug flag reads false print nothing: every per-call
trace list in the run is empty. -/
theorem runEvents_false_traces : ∀ (calls : List CallArg) (st : List Event),
    (∀ c ∈ calls, c.debug = false) →
    (runEvents st calls).2 = calls.map (fun _ => ([] : List Trace))
  | [], _, _ => rfl
  | c :: rest, st, h => by
    have hc : c.debug = false := h c (by simp)
    simp only [runEvents, List.map_cons]
    rw [hc, (new_event_false_quiet st c.event_type c.updated_element).1,
      runEvents_false_traces rest _ (fun a ha => h a (by simp [ha]))]

/-- A non-filtered call made while the debug flag reads true prints its own
raw trace line first, whatever else happens. -/
theorem new_event_traces_head (st : List Event) (k : BlenderEvents) (el : Option Element)
    (hk : k ≠ BlenderEvents.node_update) :
    ((new_event true st k el).traces).head? = some (BlenderEvents.print k el) := by
  by_cases hterm : k ∈ sign_of_wave_end
  · rcases hconv : convert_wave_to_sverchok_event true (st ++ [⟨k, el⟩]) with e | ts
    · rw [new_event_raised true st k el e hk hterm hconv]
      rfl
    · rw [new_event_closed true st k el ts hk hterm hconv]
      rfl
  · rw [new_event_open true st k el hk hterm]
    rfl

/-- Reduction of a wave whose first record classifies to `undefined` always
succeeds, tracing the bare kind in debug mode and nothing otherwise. -/
theorem convert_undefined_ok (debug : Bool) (f : Event) (rest : List Event)
    (hf : f.get_sverchok_type_event = .ok SverchokEvents.undefined) :
    convert_wave_to_sverchok_event debug (f :: rest) =
      .ok (if debug then [.reduced .undefined none] else []) := by
  cases debug <;> simp [convert_wave_to_sverchok_event, hf, SverchokEvents.print]

/-! ### Claim theorems -/

/-- C4: a record call with kind `node_update` leaves the wave buffer
unchanged, produces no trace output and no error, and — at any position of
any call sequence — contributes exactly an empty trace list while leaving the
state threaded to the remaining calls untouched. -/
theorem claim_C4_node_update_frame (debug : Bool) (st : List Event) (el : Option Element) :
    new_event debug st BlenderEvents.node_update el = ⟨st, [], none⟩ ∧
    ∀ pre post : List CallArg,
      (runEvents st (pre ++ ⟨debug, BlenderEvents.node_update, el⟩ :: post)).1 =
        (runEvents st (pre ++ post)).1 ∧
      (runEvents st (pre ++ ⟨debug, BlenderEvents.node_update, el⟩ :: post)).2 =
        (runEvents st pre).2 ++ ([] : List Trace) :: (runEvents (runEvents st pre).1 post).2 := by
  refine ⟨rfl, ?_⟩
  intro pre post
  rw [runEvents_append st pre (⟨debug, BlenderEvents.node_update, el⟩ :: post),
    runEvents_append st pre post]
  constructor
  · simp only [runEvents, new_event_node_update]
  · simp only [runEvents, new_event_node_update]

/-- C5: `Event` equality is kind-only — records with equal kind compare equal
whatever their subjects, records with different kinds never compare equal,
and the same holds comparing a record against a bare raw kind, in either
operand order. -/
theorem claim_C5_kind_only_equality (k k' : BlenderEvents) (s1 s2 : Option Element)
    (hkk : k ≠ k') :
    pyEq (.ofEvent ⟨k, s1⟩) (.ofEvent ⟨k, s2⟩) = true ∧
    pyEq (.ofEvent ⟨k, s1⟩) (.ofEvent ⟨k', s2⟩) = false ∧
    pyEq (.ofEvent ⟨k, s1⟩) (.ofKind k) = true ∧
    pyEq (.ofEvent ⟨k, s1⟩) (.ofKind k') = false ∧
    pyEq (.ofKind k) (.ofEvent ⟨k, s2⟩) = true ∧
    pyEq (.ofKind k') (.ofEvent ⟨k, s2⟩) = false := by
  simp [pyEq, hkk, Ne.symm hkk]

/-- C5 witness: concrete records with equal kind and differing subjects, and
records of differing kinds. -/
theorem claim_C5_kind_only_equality_witness :
    pyEq (.ofEvent ⟨.add_node, some ⟨"SvNode", "a"⟩⟩) (.ofEvent ⟨.add_node, none⟩) = true ∧
    pyEq (.ofEvent ⟨.add_node, some ⟨"SvNode", "a"⟩⟩) (.ofEvent ⟨.tree_update, none⟩) = false ∧
    pyEq (.ofEvent ⟨.add_node, some ⟨"SvNode", "a"⟩⟩) (.ofKind .add_node) = true ∧
    pyEq (.ofEvent ⟨.add_node, some ⟨"SvNode", "a"⟩⟩) (.ofKind .tree_update) = false ∧
    pyEq (.ofKind .add_node) (.ofEvent ⟨.add_node, none⟩) = true ∧
    pyEq (.ofKind .tree_update) (.ofEvent ⟨.add_node, none⟩) = false :=
  claim_C5_kind_only_equality .add_node .tree_update (some ⟨"SvNode", "a"⟩) none (by decide)

/-- C6: classification is total over the nine declared raw kinds and equals
the fixed `EVENT_CONVERSION` table. -/
theorem claim_C6_classification_table (s : Option Element) :
    Event.get_sverchok_type_event ⟨.add_node, s⟩ = .ok .add_node ∧
    Event.get_sverchok_type_event ⟨.copy_node, s⟩ = .ok .copy_nodes ∧
    Event.get_sverchok_type_event ⟨.free_node, s⟩ = .ok .free_nodes ∧
    Event.get_sverchok_type_event ⟨.add_link_to_node, s⟩ = .ok .node_link_update ∧
    Event.get_sverchok_type_event ⟨.node_property_update, s⟩ = .ok .node_property_update ∧
    Event.get_sverchok_type_event ⟨.undo, s⟩ = .ok .undo ∧
    Event.get_sverchok_type_event ⟨.tree_update, s⟩ = .ok .undefined ∧
    Event.get_sverchok_type_event ⟨.monad_tree_update, s⟩ = .ok .undefined ∧
    Event.get_sverchok_type_event ⟨.node_update, s⟩ = .ok .undefined :=
  ⟨rfl, rfl, rfl, rfl, rfl, rfl, rfl, rfl, rfl⟩

/-- C7: classifying through a table that lacks the requested kind fails with
the `KeyError` carrying the offending kind, and classification through the
actual `EVENT_CONVERSION` table never fails for any of the nine declared
kinds. -/
theorem claim_C7_unmapped_kind_error (table : List (BlenderEvents × SverchokEvents))
    (k : BlenderEvents) (s : Option Element) (habsent : dict_get table k = none) :
    Event.get_sverchok_type_event_in table ⟨k, s⟩ = .error (.KeyError k) ∧
    ∀ (k' : BlenderEvents) (s' : Option Element),
      ∃ v, Event.get_sverchok_type_event ⟨k', s'⟩ = .ok v := by
  constructor
  · simp [Event.get_sverchok_type_event_in, habsent]
  · intro k' s'
    cases k' <;> exact ⟨_, rfl⟩

/-- C7 witness: the empty table lacks every kind, and classification fails
there carrying the kind. -/
theorem claim_C7_unmapped_kind_error_witness :
    Event.get_sverchok_type_event_in [] ⟨.undo, none⟩ = .error (.KeyError .undo) :=
  (claim_C7_unmapped_kind_error [] .undo none rfl).1

/-- C10: `Event` inequality is not the negation of `Event` equality — for two
records with equal kind and different subjects, the `==` of the kind-only
override and the `!=` inherited element-wise from tuple both return true. -/
theorem claim_C10_ne_not_negation (k : BlenderEvents) (s1 s2 : Option Element)
    (hne : s1 ≠ s2) :
    pyEq (.ofEvent ⟨k, s1⟩) (.ofEvent ⟨k, s2⟩) = true ∧
    Event.tupleNe ⟨k, s1⟩ ⟨k, s2⟩ = true := by
  constructor
  · simp [pyEq]
  · simp [Event.tupleNe, hne]

/-- C10 witness: same kind, one subject present and one absent. -/
theorem claim_C10_ne_not_negation_witness :
    pyEq (.ofEvent ⟨.copy_node, some ⟨"SvNode", "a"⟩⟩) (.ofEvent ⟨.copy_node, none⟩) = true ∧
    Event.tupleNe ⟨.copy_node, some ⟨"SvNode", "a"⟩⟩ ⟨.copy_node, none⟩ = true :=
  claim_C10_ne_not_negation .copy_node (some ⟨"SvNode", "a"⟩) none (by decide)

/-- C1 (amended): on wave termination with tracing enabled, reduction
classifies the first record to `primaryKind`; if that is `undefined` it
emits the event with no subject list; otherwise it emits `primaryKind`
together with the subjects, in occurrence order with duplicates retained, of
the maximal leading run of records comparing equal by kind to the first
record — every record after that run excluded — provided the run's subject
names all materialize (each run record carries a subject). -/
theorem claim_C1_leading_run_trace (first : Event) (rest : List Event) (sv : SverchokEvents)
    (hsv : first.get_sverchok_type_event = .ok sv) :
    (sv = .undefined →
      convert_wave_to_sverchok_event true (first :: rest) =
        .ok [.reduced .undefined none]) ∧
    (∀ names, sv ≠ .undefined →
      elementNames (((first :: rest).takeWhile
          (fun ev => pyEq (.ofEvent ev) (.ofEvent first))).map
        (fun ev => ev.updated_element)) = some names →
      convert_wave_to_sverchok_event true (first :: rest) =
        .ok [.reduced sv (some names)]) := by
  constructor
  · intro h
    subst h
    simp [convert_wave_to_sverchok_event, hsv, SverchokEvents.print]
  · intro names hne hnames
    simp [convert_wave_to_sverchok_event, hsv, hne, SverchokEvents.print, hnames]

/-- C1 witness: the copy-grouping wave — three records, the leading run being
the two `copy_node` records, whose subjects are reported in order, with the
terminating record excluded. -/
theorem claim_C1_leading_run_trace_witness :
    convert_wave_to_sverchok_event true
        [⟨.copy_node, some ⟨"SvNode", "n1"⟩⟩, ⟨.copy_node, some ⟨"SvNode", "n2"⟩⟩,
         ⟨.tree_update, some ⟨"SverchCustomTreeType", "T"⟩⟩] =
      .ok [.reduced .copy_nodes (some ["n1", "n2"])] :=
  (claim_C1_leading_run_trace ⟨.copy_node, some ⟨"SvNode", "n1"⟩⟩
      [⟨.copy_node, some ⟨"SvNode", "n2"⟩⟩, ⟨.tree_update, some ⟨"SverchCustomTreeType", "T"⟩⟩]
      .copy_nodes rfl).2 ["n1", "n2"] (by decide) rfl

/-- C1 counterexample to the claim as stated: a leading run repeating one
subject is reported with the duplicate kept, not as the distinct subjects in
first-occurrence order. -/
theorem claim_C1_distinct_subjects_counterexample :
    convert_wave_to_sverchok_event true
        [⟨.add_node, some ⟨"SvNode", "n1"⟩⟩, ⟨.add_node, some ⟨"SvNode", "n1"⟩⟩,
         ⟨.tree_update, some ⟨"SverchCustomTreeType", "T"⟩⟩] =
      .ok [.reduced .add_node (some ["n1", "n1"])] ∧
    (["n1", "n1"] : List String) ≠ ["n1"] :=
  ⟨rfl, by simp⟩

/-- C2 (amended): for a non-filtered kind, a record call leaves the buffer
appended-and-open when the kind is not a terminator; on a terminator it
drains the buffer provided the reduction raised nothing; and with the debug
flag off the drain happens exactly when the kind is a terminator. -/
theorem claim_C2_wave_termination (debug : Bool) (st : List Event) (k : BlenderEvents)
    (el : Option Element) (hk : k ≠ BlenderEvents.node_update) :
    (k ∉ sign_of_wave_end →
      (new_event debug st k el).events_wave = st ++ [⟨k, el⟩]) ∧
    (k ∈ sign_of_wave_end → (new_event debug st k el).err = none →
      (new_event debug st k el).events_wave = []) ∧
    (debug = false →
      ((new_event debug st k el).events_wave = [] ↔ k ∈ sign_of_wave_end)) := by
  refine ⟨?_, ?_, ?_⟩
  · intro hterm
    rw [new_event_open debug st k el hk hterm]
  · intro hterm herr
    rcases hconv : convert_wave_to_sverchok_event debug (st ++ [⟨k, el⟩]) with e | ts
    · rw [new_event_raised debug st k el e hk hterm hconv] at herr
      exact absurd herr (by simp)
    · rw [new_event_closed debug st k el ts hk hterm hconv]
  · intro hdebug
    subst hdebug
    rw [new_event_false_shape st k el hk]
    by_cases hterm : k ∈ sign_of_wave_end
    · simp [hterm]
    · simp [hterm]

/-- C2 witness: a bare `tree_update` record call with debugging off drains
the buffer. -/
theorem claim_C2_wave_termination_witness :
    (new_event false [] BlenderEvents.tree_update none).events_wave = [] :=
  ((claim_C2_wave_termination false [] BlenderEvents.tree_update none
    (by decide)).2.2 rfl).mpr (by decide)

/-- C2 counterexample to the claim as stated: a record call appending the
terminating kind `tree_update` after a subject-less structural record, with
debugging on, runs the reduction but does not drain the buffer (the
reduction's trace raises), so closure is not equivalent to the appended kind
being a terminator. -/
theorem claim_C2_closure_counterexample :
    BlenderEvents.tree_update ∈ sign_of_wave_end ∧
    (runEvents [] [⟨true, .add_node, none⟩,
        ⟨true, .tree_update, some ⟨"SverchCustomTreeType", "T"⟩⟩]).1 ≠ [] := by
  refine ⟨by decide, ?_⟩
  have h : (runEvents [] [⟨true, .add_node, none⟩,
        ⟨true, .tree_update, some ⟨"SverchCustomTreeType", "T"⟩⟩]).1 =
      [⟨.add_node, none⟩, ⟨.tree_update, some ⟨"SverchCustomTreeType", "T"⟩⟩] := rfl
  rw [h]
  simp

/-- C3 (amended): immediately after a wave termination the buffer is empty
provided the reduction raised nothing; it is always empty when the debug
flag is off, and always in the `undefined`-primary case — there the clearing
is unconditional even though reduction determined no meaningful event. -/
theorem claim_C3_post_reduction_empty (debug : Bool) (st : List Event) (k : BlenderEvents)
    (el : Option Element) (hterm : k ∈ sign_of_wave_end) :
    ((new_event debug st k el).err = none → (new_event debug st k el).events_wave = []) ∧
    (debug = false →
      (new_event debug st k el).events_wave = [] ∧ (new_event debug st k el).err = none) ∧
    (∀ f rest, st ++ [⟨k, el⟩] = f :: rest →
      f.get_sverchok_type_event = .ok SverchokEvents.undefined →
      (new_event debug st k el).events_wave = [] ∧
        (new_event debug st k el).err = none) := by
  have hk : k ≠ BlenderEvents.node_update := by
    intro h
    subst h
    simp [sign_of_wave_end] at hterm
  refine ⟨?_, ?_, ?_⟩
  · intro herr
    rcases hconv : convert_wave_to_sverchok_event debug (st ++ [⟨k, el⟩]) with e | ts
    · rw [new_event_raised debug st k el e hk hterm hconv] at herr
      exact absurd herr (by simp)
    · rw [new_event_closed debug st k el ts hk hterm hconv]
  · intro hdebug
    subst hdebug
    rw [new_event_false_shape st k el hk, if_pos hterm]
    exact ⟨rfl, rfl⟩
  · intro f rest hlist hf
    have hconv : convert_wave_to_sverchok_event debug (st ++ [⟨k, el⟩]) =
        .ok (if debug then [.reduced .undefined none] else []) := by
      rw [hlist]
      exact convert_undefined_ok debug f rest hf
    rw [new_event_closed debug st k el _ hk hterm hconv]
    exact ⟨rfl, rfl⟩

/-- C3 witness: a `node_property_update` record call with debugging off
leaves the buffer empty with no error. -/
theorem claim_C3_post_reduction_empty_witness :
    (new_event false [] BlenderEvents.node_property_update
        (some ⟨"SvNode", "a"⟩)).events_wave = [] ∧
    (new_event false [] BlenderEvents.node_property_update
        (some ⟨"SvNode", "a"⟩)).err = none :=
  (claim_C3_post_reduction_empty false [] BlenderEvents.node_property_update
    (some ⟨"SvNode", "a"⟩) (by decide)).2.1 rfl

/-- C3 counterexample to the claim as stated: a terminating
`node_property_update` record appended after a subject-less `copy_node`
record, with debugging on, leaves the buffer non-empty — the reduction's
trace raises before the clearing runs. -/
theorem claim_C3_clear_counterexample :
    BlenderEvents.node_property_update ∈ sign_of_wave_end ∧
    (new_event true [⟨.copy_node, none⟩] BlenderEvents.node_property_update
        (some ⟨"SvNode", "n"⟩)).events_wave ≠ [] := by
  refine ⟨by decide, ?_⟩
  have h : (new_event true [⟨.copy_node, none⟩] BlenderEvents.node_property_update
        (some ⟨"SvNode", "n"⟩)).events_wave =
      [⟨.copy_node, none⟩, ⟨.node_property_update, some ⟨"SvNode", "n"⟩⟩] := rfl
  rw [h]
  simp

/-- C8: the claim says reduction never raises on a non-empty wave of
declared kinds, but it does — on the non-empty wave holding a subject-less
`add_node` record followed by the terminating `tree_update` record, the
debug trace of the reduction evaluates `el.name` on an absent element and
raises `AttributeError`. -/
theorem claim_C8_reduction_raises_at_failing_input :
    convert_wave_to_sverchok_event true
        [⟨.add_node, none⟩, ⟨.tree_update, some ⟨"SverchCustomTreeType", "T"⟩⟩] =
      .error .AttributeError ∧
    ([⟨.add_node, none⟩, ⟨.tree_update, some ⟨"SverchCustomTreeType", "T"⟩⟩] :
      List Event) ≠ [] :=
  ⟨rfl, by simp⟩

/-- C9: with the debug flag read false at every call no trace lines are ever
produced, and when the flag flips to true the very next non-filtered call
begins tracing — its output starts with its own raw line — with the calls
made under the false flag having produced nothing to replay. -/
theorem claim_C9_debug_toggling (st : List Event) :
    (∀ calls : List CallArg, (∀ c ∈ calls, c.debug = false) →
      ∀ ts ∈ (runEvents st calls).2, ts = ([] : List Trace)) ∧
    (∀ (pre : List CallArg) (k : BlenderEvents) (el : Option Element),
      (∀ a ∈ pre, a.debug = false) → k ≠ BlenderEvents.node_update →
      (runEvents st (pre ++ [⟨true, k, el⟩])).2 =
        pre.map (fun _ => ([] : List Trace)) ++
          [(new_event true (runEvents st pre).1 k el).traces] ∧
      ((new_event true (runEvents st pre).1 k el).traces).head? =
        some (BlenderEvents.print k el)) := by
  constructor
  · intro calls h ts hts
    rw [runEvents_false_traces calls st h] at hts
    simp only [List.mem_map] at hts
    obtain ⟨a, _, rfl⟩ := hts
    rfl
  · intro pre k el hpre hk
    constructor
    · rw [runEvents_append st pre [⟨true, k, el⟩]]
      rw [show (runEvents st (pre)).2 ++ (runEvents (runEvents st pre).1 [⟨true, k, el⟩]).2 =
          (runEvents st pre).2 ++ [(new_event true (runEvents st pre).1 k el).traces] from rfl]
      rw [runEvents_false_traces pre st hpre]
    · exact new_event_traces_head (runEvents st pre).1 k el hk

/-- C9 witness: one call under the false flag followed by one under the true
flag — the first call's trace list is empty and the second call's output
starts with its own raw trace line. -/
theorem claim_C9_debug_toggling_witness :
    (runEvents [] ([⟨false, .copy_node, some ⟨"SvNode", "a"⟩⟩] ++
        [⟨true, .tree_update, some ⟨"SverchCustomTreeType", "T"⟩⟩])).2 =
      List.map (fun _ => ([] : List Trace))
          ([⟨false, .copy_node, some ⟨"SvNode", "a"⟩⟩] : List CallArg) ++
        [(new_event true
            (runEvents [] [⟨false, .copy_node, some ⟨"SvNode", "a"⟩⟩]).1
            .tree_update (some ⟨"SverchCustomTreeType", "T"⟩)).traces] ∧
    ((new_event true (runEvents [] [⟨false, .copy_node, some ⟨"SvNode", "a"⟩⟩]).1
        .tree_update (some ⟨"SverchCustomTreeType", "T"⟩)).traces).head? =
      some (BlenderEvents.print .tree_update (some ⟨"SverchCustomTreeType", "T"⟩)) :=
  (claim_C9_debug_toggling []).2 [⟨false, .copy_node, some ⟨"SvNode", "a"⟩⟩]
    .tree_update (some ⟨"SverchCustomTreeType", "T"⟩) (by simp) (by decide)
